import Mathlib

/-!
# Verification of the langtut flash-card engine

Shallow embedding of the card data model (`src/models.py`), the card
statistics module (`src/services/learning/statistics.py`), and the learn and
review session services (`app/services/learning/learn_service.py`,
`app/services/learning/review_service.py`).

Modelling conventions:
* Python `datetime` values are modelled as integer seconds since the epoch;
  `datetime.now()` becomes an explicit `now : Int` parameter.
* The Flask session (`SessionManager`) becomes explicit state records that
  are threaded through the service functions.
* `random.shuffle` becomes an explicit `shuffle : List Card → List Card`
  parameter, constrained to return a permutation of its input where a claim
  needs it.
* Python `int(x)` applied to the non-negative float `correct / total * 100`
  is modelled as Nat floor division `correct * 100 / total`.
-/

namespace Langtut

/-- Table `days_to_review` from `src/models.py`: days until the next review,
indexed by proficiency level (levels are the enum values 0..7). -/
def days_to_review (l : Nat) : Nat :=
  match l with
  | 0 => 0
  | 1 => 2
  | 2 => 5
  | 3 => 9
  | 4 => 15
  | 5 => 25
  | 6 => 40
  | _ => 60

/-- Method `Levels.next_level` from `src/models.py`:
`Levels(self.value + 1) if self.value < 7 else Levels.LEVEL_7`. -/
def next_level (l : Nat) : Nat :=
  if l < 7 then l + 1 else 7

/-- Method `Levels.previous_level` from `src/models.py`:
`Levels(self.value - 1) if self.value > 0 else Levels.LEVEL_0`. -/
def previous_level (l : Nat) : Nat :=
  if l > 0 then l - 1 else 0

/-- Model `Card` from `src/models.py`. The proficiency level is the integer value
of the `Levels` enum; `last_shown` is in epoch seconds (`NEVER_SHOWN` = the
epoch itself, i.e. 0). -/
structure Card where
  id : Int
  word : String
  translation : String
  equivalent : String
  example_ : String
  example_translation : String
  cnt_shown : Nat := 0
  cnt_corr_answers : Nat := 0
  level : Nat := 0
  last_shown : Int := 0
deriving Repr, DecidableEq

instance : Inhabited Card :=
  ⟨{ id := 0, word := "", translation := "", equivalent := "",
     example_ := "", example_translation := "" }⟩

/-- Computed field `Card.next_review`: `last_shown + timedelta(days=days_to_review[level])`,
in epoch seconds. -/
def Card.next_review (c : Card) : Int :=
  c.last_shown + (days_to_review c.level : Int) * 86400

/-- Computed field `Card.seconds_to_next_review`: seconds from `now` until
the next review is due. -/
def Card.seconds_to_next_review (c : Card) (now : Int) : Int :=
  c.next_review - now

/-- Computed field `Card.is_delayed`: `datetime.now() > self.next_review`. -/
def Card.is_delayed (c : Card) (now : Int) : Bool :=
  now > c.next_review

/-- Record `LevelChange` from `src/services/learning/statistics.py`. -/
structure LevelChange where
  from_level : Nat
  to_level : Nat
  is_correct : Bool
deriving Repr, DecidableEq

/-- Record `AnswerResult` from `src/services/learning/statistics.py`. -/
structure AnswerResult where
  is_correct : Bool
  level_change : LevelChange
  updated_card : Card
deriving Repr, DecidableEq

/-- Method `CardStatistics.check_answer`: case-insensitive, trimmed comparison. -/
def check_answer (user_answer correct_answer : String) : Bool :=
  user_answer.trim.toLower == correct_answer.trim.toLower

/-- Method `CardStatistics.update_on_answer` from
`src/services/learning/statistics.py`: always bumps `cnt_shown` and
`last_shown`; on a correct answer bumps `cnt_corr_answers` and moves the
level up via `next_level`, on an incorrect answer moves it down via
`previous_level`. `get_timestamp()` is the explicit `now` parameter. -/
def update_on_answer (card : Card) (is_correct : Bool) (now : Int) : AnswerResult :=
  let original_level := card.level
  let card1 : Card := { card with cnt_shown := card.cnt_shown + 1, last_shown := now }
  let card2 : Card :=
    if is_correct then
      { card1 with cnt_corr_answers := card1.cnt_corr_answers + 1,
                   level := next_level card1.level }
    else
      { card1 with level := previous_level card1.level }
  { is_correct := is_correct,
    level_change := { from_level := original_level, to_level := card2.level,
                      is_correct := is_correct },
    updated_card := card2 }

/-- Folding `update_on_answer` over a sequence of (correctness, timestamp)
answers, as a session does card by card. -/
def apply_answers (card : Card) : List (Bool × Int) → Card
  | [] => card
  | (b, now) :: rest => apply_answers (update_on_answer card b now).updated_card rest

/-- Model `CardSet` from `src/models.py`: one spreadsheet tab. -/
structure CardSet where
  name : String
  gid : Int
  cards : List Card
deriving Repr, DecidableEq

/-- Method `CardSet.cards_to_review`: the cards currently due for review. -/
def CardSet.cards_to_review (cs : CardSet) (now : Int) (ignore_unshown : Bool) :
    List Card :=
  if ignore_unshown then
    cs.cards.filter (fun card => card.is_delayed now && decide (card.cnt_shown > 0))
  else
    cs.cards.filter (fun card => card.is_delayed now)

/-- The comparison used by `sorted(cards_to_review, key=lambda card:
card.seconds_to_next_review)`: ascending by urgency key (Python `sorted`
and `List.mergeSort` are both stable). -/
def review_le (now : Int) (a b : Card) : Bool :=
  decide (a.seconds_to_next_review now ≤ b.seconds_to_next_review now)

/-- Method `CardSet.get_cards_to_review` from `src/models.py`. Note the Python
truncation `sorted_cards[:limit] if limit else sorted_cards` is guarded by
the truthiness of `limit`, so `limit=None` and `limit=0` both skip the
truncation. `random.shuffle` is the explicit `shuffle` parameter. -/
def CardSet.get_cards_to_review (cs : CardSet) (now : Int) (limit : Option Nat)
    (ignore_unshown : Bool) (shuffle : List Card → List Card) : List Card :=
  let cards_to_review := cs.cards_to_review now ignore_unshown
  let sorted_cards := cards_to_review.mergeSort (review_le now)
  let cards :=
    match limit with
    | some n => if n ≠ 0 then sorted_cards.take n else sorted_cards
    | none => sorted_cards
  shuffle cards

/-- One answer record of the session answer log, as built by
`CardStatistics.create_answer_record` (the fields the engine reads back). -/
structure AnswerRecord where
  card_index : Nat
  word : String
  user_answer : String
  is_correct : Bool
  is_review : Bool
deriving Repr, DecidableEq

/-- Record `SessionStats` from `src/services/learning/statistics.py`. -/
structure SessionStats where
  total_answered : Nat
  correct_answers : Nat
  accuracy_percentage : Nat
  review_count : Nat
  first_attempt_count : Nat
deriving Repr, DecidableEq

/-- Method `CardStatistics.calculate_session_stats`: pure function over the answer
log. The Python code computes `accuracy = int(correct / total * 100)` when
`total > 0` (truncation of the quotient, modelled as Nat floor division)
and `0` otherwise. -/
def calculate_session_stats (answers : List AnswerRecord) : SessionStats :=
  let total := answers.length
  let correct := (answers.filter (fun a => a.is_correct)).length
  let review_answers := answers.filter (fun a => a.is_review)
  let accuracy := if total > 0 then correct * 100 / total else 0
  { total_answered := total,
    correct_answers := correct,
    accuracy_percentage := accuracy,
    review_count := review_answers.length,
    first_attempt_count := total - review_answers.length }

/-- Record `CardDisplayContext` from `app/services/learning/learn_service.py`.
The Python code tags the card dict itself with an `is_review` key; here that
tag is the `is_review` field alongside the card. -/
structure CardDisplayContext where
  card : Card
  is_review : Bool
  index : Nat
  total : Nat
  is_reviewing_incorrect : Bool
  active_tab : String
  sheet_gid : Int
deriving Repr, DecidableEq

/-- The learning-namespace session state used by `LearnService`
(`LEARNING_CARDS`, `LEARNING_CURRENT_INDEX`, `LEARNING_REVIEWING_INCORRECT`,
`LEARNING_INCORRECT_CARDS`, `LEARNING_ANSWERS`, `LEARNING_ORIGINAL_COUNT`,
`LEARNING_ACTIVE_TAB`, `LEARNING_SHEET_GID`, `LEARNING_LAST_LEVEL_CHANGE`). -/
structure LearnState where
  cards : List Card
  current_index : Nat
  is_reviewing_incorrect : Bool
  incorrect_indices : List Nat
  answers : List AnswerRecord
  original_count : Nat
  active_tab : String
  sheet_gid : Int
  last_level_change : Option LevelChange
deriving Repr, DecidableEq

/-- Session initialization performed by `LearnService.start_session` after the
cards have been staged (`CardSessionManager.initialize` plus the learn-specific
keys). -/
def initialize_session (cards : List Card) (tab_name : String) (gid : Int) :
    LearnState :=
  { cards := cards, current_index := 0, is_reviewing_incorrect := false,
    incorrect_indices := [], answers := [], original_count := cards.length,
    active_tab := tab_name, sheet_gid := gid, last_level_change := none }

/-- The card-serving part of `LearnService.get_current_card_context`: the
branches taken when the first guard (`index >= len(cards) and not reviewing`)
is false, i.e. review-complete check, review-pass card, or first-pass card.
Out-of-range reads are modelled with `getD` (they do not occur in runs). -/
def serve_card (s : LearnState) : Option CardDisplayContext × LearnState :=
  if s.is_reviewing_incorrect then
    if s.incorrect_indices.length ≤ s.current_index then
      (none, s)
    else
      let card_index := s.incorrect_indices.getD s.current_index 0
      (some { card := s.cards.getD card_index default, is_review := true,
              index := s.current_index, total := s.incorrect_indices.length,
              is_reviewing_incorrect := true, active_tab := s.active_tab,
              sheet_gid := s.sheet_gid }, s)
  else
    (some { card := s.cards.getD s.current_index default, is_review := false,
            index := s.current_index, total := s.cards.length,
            is_reviewing_incorrect := false, active_tab := s.active_tab,
            sheet_gid := s.sheet_gid }, s)

/-- Method `LearnService.get_current_card_context`. The Python function makes one
recursive call after switching to the review phase
(`LEARNING_REVIEWING_INCORRECT = true`, index 0); on the transitioned state the
first guard is false, so that single unfolding is inlined here as `serve_card`
of the transitioned state. Returns the context (None when the session or
review pass is complete) together with the possibly-mutated session state. -/
def get_current_card_context (s : LearnState) :
    Option CardDisplayContext × LearnState :=
  if s.cards.length ≤ s.current_index ∧ s.is_reviewing_incorrect = false then
    if s.incorrect_indices.isEmpty = false then
      serve_card { s with is_reviewing_incorrect := true, current_index := 0 }
    else
      (none, s)
  else
    serve_card s

/-- Record `AnswerProcessResult` from `app/services/learning/learn_service.py`. -/
structure AnswerProcessResult where
  success : Bool
  is_correct : Bool := false
  level_change : Option LevelChange := none
  error : Option String := none
deriving Repr, DecidableEq

/-- Method `LearnService.process_answer`: fetches the current context (possibly
switching the session into the review phase), checks the answer against the
card's word, updates the card in place (`CardSessionManager.update_card`
ignores out-of-range indices, like `List.set`), appends the answer record, and
queues the current first-pass index for review exactly when the answer is
incorrect and the session is not in the review pass. -/
def process_answer (s : LearnState) (user_answer : String) (now : Int) :
    AnswerProcessResult × LearnState :=
  match get_current_card_context s with
  | (none, s1) => ({ success := false, error := some "No active session" }, s1)
  | (some context, s1) =>
      let card := context.card
      let reviewing := context.is_reviewing_incorrect
      let is_correct := check_answer user_answer card.word
      let card_index :=
        if reviewing then s1.incorrect_indices.getD context.index 0
        else context.index
      let result := update_on_answer card is_correct now
      let s2 : LearnState :=
        { s1 with cards := s1.cards.set card_index result.updated_card }
      let answer_record : AnswerRecord :=
        { card_index := card_index, word := card.word, user_answer := user_answer,
          is_correct := is_correct, is_review := reviewing }
      let s3 : LearnState := { s2 with answers := s2.answers ++ [answer_record] }
      let s4 : LearnState :=
        if is_correct = false ∧ reviewing = false then
          { s3 with incorrect_indices := s3.incorrect_indices ++ [context.index] }
        else s3
      let s5 : LearnState := { s4 with last_level_change := some result.level_change }
      ({ success := true, is_correct := is_correct,
         level_change := some result.level_change }, s5)

/-- Method `LearnService.advance_to_next`. -/
def advance_to_next (s : LearnState) : LearnState :=
  { s with current_index := s.current_index + 1 }

/-- One answered card as driven by the learn routes: `process_answer` followed
by `advance_to_next` (the advance happens only for a successfully processed
answer). -/
def answer_step (s : LearnState) (user_answer : String) (now : Int) : LearnState :=
  match process_answer s user_answer now with
  | (r, s1) => if r.success then advance_to_next s1 else s1

/-- Running a learn session over a list of (user answer, timestamp) pairs. -/
def run_answers (s : LearnState) : List (String × Int) → LearnState
  | [] => s
  | (ua, now) :: rest => run_answers (answer_step s ua now) rest

/-- The first-pass indices queued for review, computed from the card words:
starting at index `k`, index `k + j` is queued exactly when the `j`-th answer
does not match the word of the card at that index. -/
def first_pass_incorrect (words : List String) (k : Nat) :
    List (String × Int) → List Nat
  | [] => []
  | (ua, _) :: rest =>
      (if check_answer ua (words.getD k "") then [] else [k])
        ++ first_pass_incorrect words (k + 1) rest

/-- Method `LearnService._batch_update_cards`. The guards mirror the Python
truthiness checks (`not cards_data or not active_tab or not
user_spreadsheet_id`); the call to `update_spreadsheet` is the external
write-back, modelled by the `write_back` outcome; every exception is caught
and turned into `False`. Card-dict conversion cannot fail in the typed
model, so the per-card try/except is not represented. -/
def batch_update_cards (s : LearnState) (user_spreadsheet_id : Option String)
    (write_back : Except String Unit) : Bool :=
  if s.cards.isEmpty ∨ s.active_tab = "" ∨ user_spreadsheet_id = none
      ∨ user_spreadsheet_id = some "" then
    false
  else
    match write_back with
    | Except.ok _ => true
    | Except.error _ => false

/-- Record `SessionEndResult` from `app/services/learning/learn_service.py`.
`cards_remaining` is an `Int` because Python computes `original_count -
total_answered` with unbounded integers. -/
structure SessionEndResult where
  total_answered : Nat
  correct_answers : Nat
  accuracy_percentage : Nat
  review_count : Nat
  first_attempt_count : Nat
  answers : List AnswerRecord
  original_count : Nat
  update_successful : Bool
  ended_early : Bool
  cards_remaining : Int
deriving Repr, DecidableEq

/-- Method `LearnService.end_session`: computes the session statistics, performs the
(exception-catching) batch write-back, computes `cards_remaining` when ending
early, and unconditionally clears the learning session namespace (the `none`
second component). The function is total: ending a session never raises. -/
def end_session (s : LearnState) (early : Bool)
    (user_spreadsheet_id : Option String) (write_back : Except String Unit) :
    SessionEndResult × Option LearnState :=
  let answers := s.answers
  let original_count := s.original_count
  let stats := calculate_session_stats answers
  let update_successful := batch_update_cards s user_spreadsheet_id write_back
  let cards_remaining : Int :=
    if early then (original_count : Int) - (stats.total_answered : Int) else 0
  ({ total_answered := stats.total_answered,
     correct_answers := stats.correct_answers,
     accuracy_percentage := stats.accuracy_percentage,
     review_count := stats.review_count,
     first_attempt_count := stats.first_attempt_count,
     answers := answers,
     original_count := original_count,
     update_successful := update_successful,
     ended_early := early,
     cards_remaining := cards_remaining },
   none)

/-- The review-namespace session state used by `ReviewService`
(`REVIEW_CARDS`, `REVIEW_CURRENT_INDEX`, `REVIEW_ACTIVE_TAB`,
`REVIEW_SHEET_GID`). -/
structure ReviewState where
  cards : List Card
  current_index : Nat
  active_tab : String
  sheet_gid : Int
deriving Repr, DecidableEq

/-- Method `ReviewService.navigate` from `app/services/learning/review_service.py`:
`next` maps the index to `(current + 1) % total`, `prev` to
`(current - 1) % total` with Python's mathematical (nonnegative) modulus,
modelled by `Int.emod`; any other direction is rejected. -/
def navigate (s : ReviewState) (direction : String) : Bool × ReviewState :=
  let total := s.cards.length
  let current := s.current_index
  if direction == "next" then
    (true, { s with current_index := (current + 1) % total })
  else if direction == "prev" then
    (true, { s with current_index := (((current : Int) - 1) % (total : Int)).toNat })
  else
    (false, s)

end Langtut

namespace Langtut

theorem update_on_answer_level (card : Card) (b : Bool) (now : Int) :
    (update_on_answer card b now).updated_card.level =
      if b then next_level card.level else previous_level card.level := by
  cases b <;> simp [update_on_answer]

theorem next_level_le (l : Nat) (h : l ≤ 7) : next_level l ≤ 7 := by
  unfold next_level; split <;> omega

theorem previous_level_le (l : Nat) (h : l ≤ 7) : previous_level l ≤ 7 := by
  unfold previous_level; split <;> omega

theorem apply_answers_level_le (answers : List (Bool × Int)) :
    ∀ card : Card, card.level ≤ 7 → (apply_answers card answers).level ≤ 7 := by
  induction answers with
  | nil => intro card h; simpa [apply_answers] using h
  | cons a rest ih =>
      intro card h
      obtain ⟨b, now⟩ := a
      rw [apply_answers]
      apply ih
      rw [update_on_answer_level]
      cases b
      · simpa using previous_level_le _ h
      · simpa using next_level_le _ h

/-- C1: level transitions clamp to 0..7 and `update_on_answer` only ever
moves the level by one step through them, so every card whose level starts
in 0..7 stays in 0..7 after any sequence of correct/incorrect answers. -/
theorem c1_level_bounds (card : Card) (h : card.level ≤ 7) :
    (∀ l : Nat, next_level l = min (l + 1) 7)
    ∧ (∀ l : Nat, previous_level l = l - 1)
    ∧ (∀ (b : Bool) (now : Int),
        (update_on_answer card b now).updated_card.level =
          if b then next_level card.level else previous_level card.level)
    ∧ (∀ answers : List (Bool × Int),
        0 ≤ (apply_answers card answers).level
        ∧ (apply_answers card answers).level ≤ 7) := by
  refine ⟨?_, ?_, ?_, ?_⟩
  · intro l; unfold next_level; split <;> omega
  · intro l; unfold previous_level; split <;> omega
  · intro b now; exact update_on_answer_level card b now
  · intro answers
    exact ⟨Nat.zero_le _, apply_answers_level_le answers card h⟩

/-- Witness for C1 at a concrete card and answer sequence. -/
theorem c1_level_bounds_witness :
    ({ id := 1, word := "ola", translation := "hi", equivalent := "",
       example_ := "", example_translation := "", level := 6 } : Card).level ≤ 7
    ∧ (apply_answers
        { id := 1, word := "ola", translation := "hi", equivalent := "",
          example_ := "", example_translation := "", level := 6 }
        [(true, 10), (true, 20), (false, 30)]).level ≤ 7 := by
  refine ⟨by decide, ?_⟩
  exact ((c1_level_bounds _ (by decide)).2.2.2 [(true, 10), (true, 20), (false, 30)]).2

/-- C3 counterexample: on the spec's own 3-answer scenario (2 correct of 3),
the implementation returns accuracy 66, not the claimed `round(2/3*100) = 67`:
`int(2/3*100)` truncates. -/
theorem c3_counterexample :
    (calculate_session_stats
      [{ card_index := 0, word := "a", user_answer := "a", is_correct := true,
         is_review := false },
       { card_index := 1, word := "b", user_answer := "x", is_correct := false,
         is_review := false },
       { card_index := 1, word := "b", user_answer := "b", is_correct := true,
         is_review := true }]).accuracy_percentage = 66
    ∧ (calculate_session_stats
      [{ card_index := 0, word := "a", user_answer := "a", is_correct := true,
         is_review := false },
       { card_index := 1, word := "b", user_answer := "x", is_correct := false,
         is_review := false },
       { card_index := 1, word := "b", user_answer := "b", is_correct := true,
         is_review := true }]).accuracy_percentage ≠ 67 := by
  constructor <;> decide

/-- C3 (amended): `calculate_session_stats` returns
`total = len(answers)`, `correct = count(is_correct)`,
`accuracy = trunc(correct/total*100)` when `total > 0` (floor division, not
rounding: 2 of 3 gives 66) and `0` for the empty log,
`review_count = count(is_review)`, `first_attempt_count = total - review_count`. -/
theorem c3_session_stats (answers : List AnswerRecord) :
    (calculate_session_stats answers).total_answered = answers.length
    ∧ (calculate_session_stats answers).correct_answers =
        answers.countP (fun a => a.is_correct)
    ∧ (calculate_session_stats answers).accuracy_percentage =
        (if answers.length > 0 then
          answers.countP (fun a => a.is_correct) * 100 / answers.length
        else 0)
    ∧ (calculate_session_stats answers).review_count =
        answers.countP (fun a => a.is_review)
    ∧ (calculate_session_stats answers).first_attempt_count =
        answers.length - answers.countP (fun a => a.is_review) := by
  refine ⟨rfl, ?_, ?_, ?_, ?_⟩ <;>
    simp [calculate_session_stats, List.countP_eq_length_filter]

theorem review_le_trans (now : Int) (a b c : Card)
    (hab : review_le now a b) (hbc : review_le now b c) : review_le now a c := by
  simp only [review_le, decide_eq_true_eq] at *
  omega

theorem review_le_total (now : Int) (a b : Card) :
    review_le now a b || review_le now b a := by
  simp only [review_le]
  by_cases h : a.seconds_to_next_review now ≤ b.seconds_to_next_review now
  · simp [h]
  · simp [le_of_not_le h]

/-- C2 counterexample: with `limit=0` (a legitimate value of "every limit N"),
a set with one due card returns that card rather than the empty selection the
claim requires, because the truncation is guarded by Python truthiness. -/
theorem c2_counterexample :
    CardSet.get_cards_to_review
        { name := "t", gid := 0,
          cards := [{ id := 1, word := "w", translation := "t", equivalent := "",
                      example_ := "", example_translation := "" }] }
        100 (some 0) false id
      = [{ id := 1, word := "w", translation := "t", equivalent := "",
           example_ := "", example_translation := "" }]
    ∧ [({ id := 1, word := "w", translation := "t", equivalent := "",
          example_ := "", example_translation := "" } : Card)] ≠ [] := by
  refine ⟨?_, by simp⟩
  simp [CardSet.get_cards_to_review, CardSet.cards_to_review, Card.is_delayed,
    Card.next_review, days_to_review]

/-- C2 (amended to limits `N ≥ 1`): `get_cards_to_review(limit=N)` filters to
the due cards, sorts them ascending by `seconds_to_next_review`, truncates to
the first `N` and only then shuffles; for any permutation-producing shuffle the
result is a permutation of the first `N` elements of the ascending sort of the
due cards, and has exactly `N` elements whenever at least `N` cards are due. -/
theorem c2_selection (cs : CardSet) (now : Int) (N : Nat) (ign : Bool)
    (shuffle : List Card → List Card)
    (hN : 1 ≤ N) (hsh : ∀ l : List Card, (shuffle l).Perm l) :
    (cs.get_cards_to_review now (some N) ign shuffle).Perm
        (((cs.cards_to_review now ign).mergeSort (review_le now)).take N)
    ∧ ((cs.cards_to_review now ign).mergeSort (review_le now)).Perm
        (cs.cards_to_review now ign)
    ∧ ((cs.cards_to_review now ign).mergeSort (review_le now)).Pairwise
        (fun a b => a.seconds_to_next_review now ≤ b.seconds_to_next_review now)
    ∧ (N ≤ (cs.cards_to_review now ign).length →
        (cs.get_cards_to_review now (some N) ign shuffle).length = N) := by
  have hN0 : N ≠ 0 := by omega
  refine ⟨?_, List.mergeSort_perm _ _, ?_, ?_⟩
  · simpa [CardSet.get_cards_to_review, hN0] using
      hsh (((cs.cards_to_review now ign).mergeSort (review_le now)).take N)
  · have h := List.sorted_mergeSort
      (review_le_trans now) (review_le_total now) (cs.cards_to_review now ign)
    exact h.imp (fun hab => by
      simpa [review_le, decide_eq_true_eq] using hab)
  · intro hle
    have hperm := hsh (((cs.cards_to_review now ign).mergeSort (review_le now)).take N)
    have hlen : (((cs.cards_to_review now ign).mergeSort (review_le now)).take N).length
        = N := by
      rw [List.length_take, (List.mergeSort_perm _ _).length_eq]
      omega
    simp [CardSet.get_cards_to_review, hN0, hperm.length_eq, hlen]

/-- Witness for C2 (amended) at a concrete card set with two due cards and
`limit = 1`, with the identity shuffle. -/
theorem c2_selection_witness :
    (CardSet.get_cards_to_review
        { name := "t", gid := 0,
          cards := [{ id := 1, word := "a", translation := "", equivalent := "",
                      example_ := "", example_translation := "", last_shown := -50 },
                    { id := 2, word := "b", translation := "", equivalent := "",
                      example_ := "", example_translation := "", last_shown := -900 }] }
        100 (some 1) false id).length = 1 :=
  (c2_selection
      { name := "t", gid := 0,
        cards := [{ id := 1, word := "a", translation := "", equivalent := "",
                    example_ := "", example_translation := "", last_shown := -50 },
                  { id := 2, word := "b", translation := "", equivalent := "",
                    example_ := "", example_translation := "", last_shown := -900 }] }
      100 1 false id (by decide) (fun l => List.Perm.refl l)).2.2.2 (by decide)

/-- C10: because the truncation in `get_cards_to_review` is guarded by the
truthiness of `limit`, `limit=0` behaves exactly like `limit=None` (all due
cards, shuffled), and truncation to the first `limit` cards happens only for
`limit ≥ 1`. -/
theorem c10_limit_zero (cs : CardSet) (now : Int) (ign : Bool)
    (shuffle : List Card → List Card) :
    cs.get_cards_to_review now (some 0) ign shuffle
        = cs.get_cards_to_review now none ign shuffle
    ∧ ((∀ l : List Card, (shuffle l).Perm l) →
        (cs.get_cards_to_review now (some 0) ign shuffle).Perm
          (cs.cards_to_review now ign))
    ∧ (∀ n : Nat, 1 ≤ n →
        cs.get_cards_to_review now (some n) ign shuffle =
          shuffle (((cs.cards_to_review now ign).mergeSort (review_le now)).take n)) := by
  refine ⟨by simp [CardSet.get_cards_to_review], ?_, ?_⟩
  · intro hsh
    simpa [CardSet.get_cards_to_review] using
      ((hsh ((cs.cards_to_review now ign).mergeSort (review_le now))).trans
        (List.mergeSort_perm _ _))
  · intro n hn
    have hn0 : n ≠ 0 := by omega
    simp [CardSet.get_cards_to_review, hn0]

/-- Witness for C10 at a concrete card set with one due card. -/
theorem c10_limit_zero_witness :
    (CardSet.get_cards_to_review
        { name := "t", gid := 0,
          cards := [{ id := 1, word := "w", translation := "", equivalent := "",
                      example_ := "", example_translation := "" }] }
        100 (some 0) false id).Perm
      (({ name := "t", gid := 0,
          cards := [{ id := 1, word := "w", translation := "", equivalent := "",
                      example_ := "", example_translation := "" }] } : CardSet
        ).cards_to_review 100 false) :=
  (c10_limit_zero _ 100 false id).2.1 (fun l => List.Perm.refl l)

theorem update_on_answer_word (card : Card) (b : Bool) (now : Int) :
    (update_on_answer card b now).updated_card.word = card.word := by
  cases b <;> simp [update_on_answer]

theorem set_getD_self (l : List α) (i : Nat) (d : α) :
    l.set i (l[i]?.getD d) = l := by
  induction l generalizing i with
  | nil => simp
  | cons a t ih =>
      cases i with
      | zero => simp
      | succ n => simp [ih]

theorem default_card_word : (default : Card).word = "" := rfl

theorem getD_map_word (l : List Card) (i : Nat) :
    ((l.map (fun c => c.word))[i]?).getD "" = (l[i]?.getD default).word := by
  rw [List.getElem?_map]
  cases h : l[i]? with
  | none => simp [default_card_word]
  | some c => simp

theorem map_word_set (l : List Card) (i : Nat) (c : Card)
    (hw : c.word = (l.getD i default).word) :
    (l.set i c).map (fun x => x.word) = l.map (fun x => x.word) := by
  rw [List.map_set, hw, List.getD_eq_getElem?_getD, ← getD_map_word]
  exact set_getD_self _ _ _

theorem get_ctx_first_pass (s : LearnState)
    (hrev : s.is_reviewing_incorrect = false)
    (hidx : s.current_index < s.cards.length) :
    get_current_card_context s =
      (some { card := s.cards.getD s.current_index default, is_review := false,
              index := s.current_index, total := s.cards.length,
              is_reviewing_incorrect := false, active_tab := s.active_tab,
              sheet_gid := s.sheet_gid }, s) := by
  have h : ¬ (s.cards.length ≤ s.current_index) := Nat.not_le.mpr hidx
  simp [get_current_card_context, serve_card, h, hrev]

theorem get_ctx_review_pass (s : LearnState)
    (hrev : s.is_reviewing_incorrect = true)
    (hidx : s.current_index < s.incorrect_indices.length) :
    get_current_card_context s =
      (some { card := s.cards.getD (s.incorrect_indices.getD s.current_index 0) default,
              is_review := true, index := s.current_index,
              total := s.incorrect_indices.length, is_reviewing_incorrect := true,
              active_tab := s.active_tab, sheet_gid := s.sheet_gid }, s) := by
  have h : ¬ (s.incorrect_indices.length ≤ s.current_index) := Nat.not_le.mpr hidx
  simp [get_current_card_context, serve_card, h, hrev]

theorem get_ctx_transition (s : LearnState)
    (hrev : s.is_reviewing_incorrect = false)
    (hidx : s.cards.length ≤ s.current_index)
    (hne : s.incorrect_indices ≠ []) :
    get_current_card_context s =
      get_current_card_context
        { s with is_reviewing_incorrect := true, current_index := 0 } := by
  have hne' : s.incorrect_indices.isEmpty = false := by
    simpa [List.isEmpty_iff] using hne
  simp [get_current_card_context, hrev, hidx, hne']

theorem answer_step_first_pass (s : LearnState) (ua : String) (now : Int)
    (hrev : s.is_reviewing_incorrect = false)
    (hidx : s.current_index < s.cards.length) :
    (answer_step s ua now).cards =
      s.cards.set s.current_index
        (update_on_answer (s.cards.getD s.current_index default)
          (check_answer ua (s.cards.getD s.current_index default).word)
          now).updated_card
    ∧ (answer_step s ua now).current_index = s.current_index + 1
    ∧ (answer_step s ua now).is_reviewing_incorrect = false
    ∧ (answer_step s ua now).incorrect_indices =
        s.incorrect_indices ++
          (if check_answer ua (s.cards.getD s.current_index default).word then []
           else [s.current_index])
    ∧ (answer_step s ua now).answers.length = s.answers.length + 1
    ∧ (answer_step s ua now).original_count = s.original_count := by
  have hctx := get_ctx_first_pass s hrev hidx
  cases hc : check_answer ua (s.cards.getD s.current_index default).word <;>
    simp only [List.getD_eq_getElem?_getD] at hc <;>
    simp [answer_step, process_answer, hctx, hc, advance_to_next, hrev]

theorem answer_step_review_pass (s : LearnState) (ua : String) (now : Int)
    (hrev : s.is_reviewing_incorrect = true)
    (hidx : s.current_index < s.incorrect_indices.length) :
    (answer_step s ua now).cards.length = s.cards.length
    ∧ (answer_step s ua now).current_index = s.current_index + 1
    ∧ (answer_step s ua now).is_reviewing_incorrect = true
    ∧ (answer_step s ua now).incorrect_indices = s.incorrect_indices
    ∧ (answer_step s ua now).answers.length = s.answers.length + 1
    ∧ (answer_step s ua now).original_count = s.original_count := by
  have hctx := get_ctx_review_pass s hrev hidx
  cases hc : check_answer ua
      (s.cards.getD (s.incorrect_indices.getD s.current_index 0) default).word <;>
    simp only [List.getD_eq_getElem?_getD] at hc <;>
    simp [answer_step, process_answer, hctx, hc, advance_to_next, hrev]

theorem run_answers_append (s : LearnState) (l₁ l₂ : List (String × Int)) :
    run_answers s (l₁ ++ l₂) = run_answers (run_answers s l₁) l₂ := by
  induction l₁ generalizing s with
  | nil => simp [run_answers]
  | cons a rest ih =>
      obtain ⟨ua, now⟩ := a
      simp [run_answers, ih]

theorem run_first_pass (uas : List (String × Int)) :
    ∀ s : LearnState, s.is_reviewing_incorrect = false →
      s.current_index + uas.length ≤ s.cards.length →
      (run_answers s uas).is_reviewing_incorrect = false
      ∧ (run_answers s uas).current_index = s.current_index + uas.length
      ∧ (run_answers s uas).cards.length = s.cards.length
      ∧ (run_answers s uas).cards.map (fun c => c.word)
          = s.cards.map (fun c => c.word)
      ∧ (run_answers s uas).incorrect_indices =
          s.incorrect_indices ++
            first_pass_incorrect (s.cards.map (fun c => c.word)) s.current_index uas
      ∧ (run_answers s uas).answers.length = s.answers.length + uas.length
      ∧ (run_answers s uas).original_count = s.original_count := by
  induction uas with
  | nil => intro s hrev _; simp [run_answers, first_pass_incorrect, hrev]
  | cons a rest ih =>
      intro s hrev hlen
      obtain ⟨ua, now⟩ := a
      have hidx : s.current_index < s.cards.length := by
        simp at hlen; omega
      obtain ⟨hcards, hci, hrev1, hinc, hans, hoc⟩ :=
        answer_step_first_pass s ua now hrev hidx
      set t := answer_step s ua now with ht
      have hwords : t.cards.map (fun c => c.word) = s.cards.map (fun c => c.word) := by
        rw [hcards]
        exact map_word_set _ _ _ (update_on_answer_word _ _ _)
      have hlen1 : t.current_index + rest.length ≤ t.cards.length := by
        rw [hci, answer_step_first_pass s ua now hrev hidx |>.1 |> congrArg List.length]
        simp at hlen ⊢
        omega
      obtain ⟨ih1, ih2, ih3, ih4, ih5, ih6, ih7⟩ := ih t hrev1 hlen1
      have hrun : run_answers s ((ua, now) :: rest) = run_answers t rest := by
        simp [run_answers, ht]
      refine ⟨by rw [hrun]; exact ih1, ?_, ?_, ?_, ?_, ?_, ?_⟩
      · rw [hrun, ih2, hci]; simp; omega
      · rw [hrun, ih3, hcards]; simp
      · rw [hrun, ih4, hwords]
      · rw [hrun, ih5, hinc, hwords, first_pass_incorrect]
        have hkey : check_answer ua
            ((s.cards.map (fun c => c.word)).getD s.current_index "")
            = check_answer ua (s.cards.getD s.current_index default).word := by
          rw [List.getD_eq_getElem?_getD, List.getD_eq_getElem?_getD, getD_map_word]
        rw [hkey, hci]
        cases check_answer ua (s.cards.getD s.current_index default).word <;> simp
      · rw [hrun, ih6, hans]; simp; omega
      · rw [hrun, ih7, hoc]

theorem run_review_pass (uas : List (String × Int)) :
    ∀ s : LearnState, s.is_reviewing_incorrect = true →
      s.current_index + uas.length ≤ s.incorrect_indices.length →
      (run_answers s uas).is_reviewing_incorrect = true
      ∧ (run_answers s uas).incorrect_indices = s.incorrect_indices
      ∧ (run_answers s uas).current_index = s.current_index + uas.length
      ∧ (run_answers s uas).answers.length = s.answers.length + uas.length
      ∧ (run_answers s uas).original_count = s.original_count := by
  induction uas with
  | nil => intro s hrev _; simp [run_answers, hrev]
  | cons a rest ih =>
      intro s hrev hlen
      obtain ⟨ua, now⟩ := a
      have hidx : s.current_index < s.incorrect_indices.length := by
        simp at hlen; omega
      obtain ⟨hlen1, hci, hrev1, hinc, hans, hoc⟩ :=
        answer_step_review_pass s ua now hrev hidx
      set t := answer_step s ua now with ht
      have hlen2 : t.current_index + rest.length ≤ t.incorrect_indices.length := by
        rw [hci, hinc]; simp at hlen; omega
      obtain ⟨ih1, ih2, ih3, ih4, ih5⟩ := ih t hrev1 hlen2
      have hrun : run_answers s ((ua, now) :: rest) = run_answers t rest := by
        simp [run_answers, ht]
      refine ⟨by rw [hrun]; exact ih1, ?_, ?_, ?_, ?_⟩
      · rw [hrun, ih2, hinc]
      · rw [hrun, ih3, hci]; simp; omega
      · rw [hrun, ih4, hans]; simp; omega
      · rw [hrun, ih5, hoc]

theorem count_first_pass_incorrect (uas : List (String × Int)) :
    ∀ (words : List String) (k i : Nat),
      (first_pass_incorrect words k uas).count i =
        if k ≤ i ∧ i < k + uas.length
            ∧ check_answer (uas.getD (i - k) ("", 0)).1 (words.getD i "") = false
          then 1 else 0 := by
  induction uas with
  | nil =>
      intro words k i
      rw [if_neg]
      · simp [first_pass_incorrect]
      · rintro ⟨h1, h2, -⟩
        simp at h2
        omega
  | cons a rest ih =>
      intro words k i
      obtain ⟨ua, tnow⟩ := a
      rw [first_pass_incorrect, List.count_append]
      by_cases hik : i = k
      · subst hik
        have htail : (first_pass_incorrect words (i + 1) rest).count i = 0 := by
          rw [ih words (i + 1) i]
          have hneg : ¬(i + 1 ≤ i ∧ i < i + 1 + rest.length
              ∧ check_answer (rest.getD (i - (i + 1)) ("", 0)).1 (words.getD i "")
                  = false) :=
            fun h => absurd h.1 (by omega)
          rw [if_neg hneg]
        rw [htail]
        by_cases hc : check_answer ua (words.getD i "") = true
        · have hneg : ¬(i ≤ i ∧ i < i + ((⟨ua, tnow⟩ :: rest : List (String × Int))).length
              ∧ check_answer
                  (((⟨ua, tnow⟩ :: rest : List (String × Int))).getD (i - i) ("", 0)).1
                  (words.getD i "") = false) := by
            rintro ⟨-, -, h3⟩
            rw [Nat.sub_self, List.getD_cons_zero] at h3
            rw [hc] at h3
            exact absurd h3 (by decide)
          rw [if_neg hneg, if_pos hc]
          simp
        · have hc2 : check_answer ua (words.getD i "") = false := by
            cases hcb : check_answer ua (words.getD i "")
            · rfl
            · exact absurd hcb hc
          have hpos : (i ≤ i ∧ i < i + ((⟨ua, tnow⟩ :: rest : List (String × Int))).length
              ∧ check_answer
                  (((⟨ua, tnow⟩ :: rest : List (String × Int))).getD (i - i) ("", 0)).1
                  (words.getD i "") = false) := by
            refine ⟨Nat.le_refl i, by simp, ?_⟩
            rw [Nat.sub_self, List.getD_cons_zero]
            exact hc2
          rw [if_pos hpos, if_neg hc]
          simp
      · have hhead :
            (if check_answer ua (words.getD k "") then ([] : List Nat) else [k]).count i
              = 0 := by
          by_cases hcb : check_answer ua (words.getD k "") = true
          · rw [if_pos hcb]; simp
          · rw [if_neg hcb]; simp [List.count_singleton, hik]
        rw [hhead, Nat.zero_add, ih words (k + 1) i]
        by_cases hki : k + 1 ≤ i
        · have hgd2 : ((⟨ua, tnow⟩ :: rest : List (String × Int)).getD (i - k) ("", 0))
              = rest.getD (i - (k + 1)) ("", 0) := by
            have hsub : i - k = (i - (k + 1)) + 1 := by omega
            rw [hsub, List.getD_cons_succ]
          have hiff : (k + 1 ≤ i ∧ i < k + 1 + rest.length
                ∧ check_answer (rest.getD (i - (k + 1)) ("", 0)).1 (words.getD i "")
                    = false)
              ↔ (k ≤ i ∧ i < k + ((⟨ua, tnow⟩ :: rest : List (String × Int))).length
                ∧ check_answer
                    (((⟨ua, tnow⟩ :: rest : List (String × Int))).getD (i - k) ("", 0)).1
                    (words.getD i "") = false) := by
            rw [hgd2]
            simp only [List.length_cons]
            constructor
            · rintro ⟨h1, h2, h3⟩
              exact ⟨by omega, by omega, h3⟩
            · rintro ⟨h1, h2, h3⟩
              exact ⟨hki, by omega, h3⟩
          exact if_congr hiff rfl rfl
        · have hneg1 : ¬(k + 1 ≤ i ∧ i < k + 1 + rest.length
              ∧ check_answer (rest.getD (i - (k + 1)) ("", 0)).1 (words.getD i "")
                  = false) :=
            fun h => hki h.1
          have hneg2 : ¬(k ≤ i ∧ i < k + ((⟨ua, tnow⟩ :: rest : List (String × Int))).length
              ∧ check_answer
                  (((⟨ua, tnow⟩ :: rest : List (String × Int))).getD (i - k) ("", 0)).1
                  (words.getD i "") = false) :=
            fun h => absurd h.1 (by omega)
          rw [if_neg hneg1, if_neg hneg2]

theorem answer_step_boundary (s : LearnState) (ua : String) (now : Int)
    (hrev : s.is_reviewing_incorrect = false)
    (hidx : s.cards.length ≤ s.current_index)
    (hne : s.incorrect_indices ≠ []) :
    answer_step s ua now =
      answer_step { s with is_reviewing_incorrect := true, current_index := 0 }
        ua now := by
  have h := get_ctx_transition s hrev hidx hne
  simp [answer_step, process_answer, h]

/-- A concrete card used by the witness instances. -/
def sample_card (i : Int) (w : String) : Card :=
  { id := i, word := w, translation := "", equivalent := "",
    example_ := "", example_translation := "" }

/-- C5: `get_current_card_context` implements the two-pass phase transition:
at the end of the first pass it either switches to the review pass (recursing
on the transitioned state) or reports the session complete; at the end of the
review pass it reports the review complete; otherwise it serves
`cards[current_index]` on the first pass and
`cards[incorrect_indices[current_index]]`, tagged `is_review`, on the review
pass. -/
theorem c5_context_state_machine (s : LearnState) :
    (s.cards.length ≤ s.current_index → s.is_reviewing_incorrect = false →
      ((s.incorrect_indices ≠ [] →
          get_current_card_context s =
            get_current_card_context
              { s with is_reviewing_incorrect := true, current_index := 0 })
        ∧ (s.incorrect_indices = [] → get_current_card_context s = (none, s))))
    ∧ (s.is_reviewing_incorrect = true →
        s.incorrect_indices.length ≤ s.current_index →
        get_current_card_context s = (none, s))
    ∧ (s.is_reviewing_incorrect = true →
        s.current_index < s.incorrect_indices.length →
        get_current_card_context s =
          (some { card := s.cards.getD (s.incorrect_indices.getD s.current_index 0) default,
                  is_review := true, index := s.current_index,
                  total := s.incorrect_indices.length, is_reviewing_incorrect := true,
                  active_tab := s.active_tab, sheet_gid := s.sheet_gid }, s))
    ∧ (s.is_reviewing_incorrect = false → s.current_index < s.cards.length →
        get_current_card_context s =
          (some { card := s.cards.getD s.current_index default, is_review := false,
                  index := s.current_index, total := s.cards.length,
                  is_reviewing_incorrect := false, active_tab := s.active_tab,
                  sheet_gid := s.sheet_gid }, s)) := by
  refine ⟨?_, ?_, ?_, ?_⟩
  · intro hlen hrev
    constructor
    · intro hne
      rw [get_ctx_transition s hrev hlen hne]
    · intro hemp
      simp [get_current_card_context, hlen, hrev, hemp]
  · intro hrev hlen2
    simp [get_current_card_context, serve_card, hrev, hlen2]
  · intro hrev hlt
    exact get_ctx_review_pass s hrev hlt
  · intro hrev hlt
    exact get_ctx_first_pass s hrev hlt

/-- Witness for C5 at concrete session states, one per branch of the state
machine. -/
theorem c5_context_state_machine_witness :
    get_current_card_context
        { cards := [sample_card 1 "a"], current_index := 1,
          is_reviewing_incorrect := false, incorrect_indices := [0], answers := [],
          original_count := 1, active_tab := "T", sheet_gid := 7,
          last_level_change := none }
      = get_current_card_context
        { cards := [sample_card 1 "a"], current_index := 0,
          is_reviewing_incorrect := true, incorrect_indices := [0], answers := [],
          original_count := 1, active_tab := "T", sheet_gid := 7,
          last_level_change := none }
    ∧ get_current_card_context
        { cards := [sample_card 1 "a"], current_index := 1,
          is_reviewing_incorrect := false, incorrect_indices := [], answers := [],
          original_count := 1, active_tab := "T", sheet_gid := 7,
          last_level_change := none }
      = (none,
        { cards := [sample_card 1 "a"], current_index := 1,
          is_reviewing_incorrect := false, incorrect_indices := [], answers := [],
          original_count := 1, active_tab := "T", sheet_gid := 7,
          last_level_change := none })
    ∧ get_current_card_context
        { cards := [sample_card 1 "a"], current_index := 1,
          is_reviewing_incorrect := true, incorrect_indices := [0], answers := [],
          original_count := 1, active_tab := "T", sheet_gid := 7,
          last_level_change := none }
      = (none,
        { cards := [sample_card 1 "a"], current_index := 1,
          is_reviewing_incorrect := true, incorrect_indices := [0], answers := [],
          original_count := 1, active_tab := "T", sheet_gid := 7,
          last_level_change := none })
    ∧ get_current_card_context
        { cards := [sample_card 1 "a", sample_card 2 "b"], current_index := 0,
          is_reviewing_incorrect := true, incorrect_indices := [1], answers := [],
          original_count := 2, active_tab := "T", sheet_gid := 7,
          last_level_change := none }
      = (some { card := sample_card 2 "b", is_review := true, index := 0,
                total := 1, is_reviewing_incorrect := true, active_tab := "T",
                sheet_gid := 7 },
        { cards := [sample_card 1 "a", sample_card 2 "b"], current_index := 0,
          is_reviewing_incorrect := true, incorrect_indices := [1], answers := [],
          original_count := 2, active_tab := "T", sheet_gid := 7,
          last_level_change := none })
    ∧ get_current_card_context
        { cards := [sample_card 1 "a"], current_index := 0,
          is_reviewing_incorrect := false, incorrect_indices := [], answers := [],
          original_count := 1, active_tab := "T", sheet_gid := 7,
          last_level_change := none }
      = (some { card := sample_card 1 "a", is_review := false, index := 0,
                total := 1, is_reviewing_incorrect := false, active_tab := "T",
                sheet_gid := 7 },
        { cards := [sample_card 1 "a"], current_index := 0,
          is_reviewing_incorrect := false, incorrect_indices := [], answers := [],
          original_count := 1, active_tab := "T", sheet_gid := 7,
          last_level_change := none }) := by
  refine ⟨?_, ?_, ?_, ?_, ?_⟩
  · exact ((c5_context_state_machine
      { cards := [sample_card 1 "a"], current_index := 1,
        is_reviewing_incorrect := false, incorrect_indices := [0], answers := [],
        original_count := 1, active_tab := "T", sheet_gid := 7,
        last_level_change := none }).1 (by decide) rfl).1 (by decide)
  · exact ((c5_context_state_machine
      { cards := [sample_card 1 "a"], current_index := 1,
        is_reviewing_incorrect := false, incorrect_indices := [], answers := [],
        original_count := 1, active_tab := "T", sheet_gid := 7,
        last_level_change := none }).1 (by decide) rfl).2 rfl
  · exact (c5_context_state_machine
      { cards := [sample_card 1 "a"], current_index := 1,
        is_reviewing_incorrect := true, incorrect_indices := [0], answers := [],
        original_count := 1, active_tab := "T", sheet_gid := 7,
        last_level_change := none }).2.1 rfl (by decide)
  · exact (c5_context_state_machine
      { cards := [sample_card 1 "a", sample_card 2 "b"], current_index := 0,
        is_reviewing_incorrect := true, incorrect_indices := [1], answers := [],
        original_count := 2, active_tab := "T", sheet_gid := 7,
        last_level_change := none }).2.2.1 rfl (by decide)
  · exact (c5_context_state_machine
      { cards := [sample_card 1 "a"], current_index := 0,
        is_reviewing_incorrect := false, incorrect_indices := [], answers := [],
        original_count := 1, active_tab := "T", sheet_gid := 7,
        last_level_change := none }).2.2.2 rfl (by decide)

/-- C6: `end_session` never raises (it is a total function), reports a failed
bulk write-back as `update_successful = false`, and clears the learning
session namespace (returns `none` for the session state) unconditionally, on
success and on failure alike. -/
theorem c6_end_session_clears (s : LearnState) (early : Bool)
    (usid : Option String) (wb : Except String Unit) :
    (end_session s early usid wb).2 = none
    ∧ (∀ e : String,
        (end_session s early usid (Except.error e)).1.update_successful = false) := by
  refine ⟨rfl, fun e => ?_⟩
  simp [end_session, batch_update_cards, ite_self]

theorem navigate_next (s : ReviewState) :
    navigate s "next"
      = (true, { s with current_index := (s.current_index + 1) % s.cards.length }) :=
  rfl

theorem navigate_prev (s : ReviewState) :
    navigate s "prev"
      = (true, { s with current_index :=
          (((s.current_index : Int) - 1) % (s.cards.length : Int)).toNat }) :=
  rfl

theorem prev_index_eq (i T : Nat) (hT : 0 < T) :
    (((i : Int) - 1) % (T : Int)).toNat = (i + T - 1) % T := by
  have h1 : ((i : Int) - 1) % (T : Int)
      = ((i : Int) - 1 + (T : Int) * 1) % (T : Int) := by
    rw [Int.add_mul_emod_self_left]
  have h2 : (i : Int) - 1 + (T : Int) * 1 = ((i + T - 1 : Nat) : Int) := by
    omega
  rw [h1, h2, ← Int.natCast_mod, Int.toNat_natCast]

/-- C8: review-mode navigation is circular: `next` maps index `i` to
`(i+1) mod T`, `prev` maps `i` to `(i-1) mod T` (mathematical modulus, so
`(i + T - 1) mod T` over naturals), `next` from `T-1` wraps to `0`, `prev`
from `0` wraps to `T-1`, and `prev` undoes `next`. -/
theorem c8_navigate (s : ReviewState) (hT : 0 < s.cards.length)
    (hi : s.current_index < s.cards.length) :
    (navigate s "next").2.current_index = (s.current_index + 1) % s.cards.length
    ∧ (navigate s "prev").2.current_index
        = (s.current_index + s.cards.length - 1) % s.cards.length
    ∧ (s.current_index = s.cards.length - 1 →
        (navigate s "next").2.current_index = 0)
    ∧ (s.current_index = 0 →
        (navigate s "prev").2.current_index = s.cards.length - 1)
    ∧ (navigate (navigate s "next").2 "prev").2.current_index = s.current_index := by
  refine ⟨by rw [navigate_next], ?_, ?_, ?_, ?_⟩
  · rw [navigate_prev]
    exact prev_index_eq s.current_index s.cards.length hT
  · intro h
    rw [navigate_next]
    dsimp only
    rw [h]
    have h1 : s.cards.length - 1 + 1 = s.cards.length := by omega
    rw [h1, Nat.mod_self]
  · intro h
    rw [navigate_prev]
    dsimp only
    rw [h, prev_index_eq 0 s.cards.length hT, Nat.zero_add]
    exact Nat.mod_eq_of_lt (by omega)
  · rw [navigate_next]
    dsimp only
    rw [navigate_prev]
    dsimp only
    rw [prev_index_eq ((s.current_index + 1) % s.cards.length) s.cards.length hT]
    rcases Nat.lt_or_ge (s.current_index + 1) s.cards.length with hlt | hge
    · rw [Nat.mod_eq_of_lt hlt]
      have h3 : s.current_index + 1 + s.cards.length - 1
          = s.current_index + s.cards.length := by omega
      rw [h3, Nat.add_mod_right]
      exact Nat.mod_eq_of_lt hi
    · have hT1 : s.current_index + 1 = s.cards.length := by omega
      rw [hT1, Nat.mod_self]
      have h4 : 0 + s.cards.length - 1 = s.cards.length - 1 := by omega
      rw [h4, Nat.mod_eq_of_lt (by omega)]
      omega

/-- Witness for C8 at a three-card review session at index 1. -/
theorem c8_navigate_witness :
    (navigate
      (navigate
        { cards := [sample_card 1 "a", sample_card 2 "b", sample_card 3 "c"],
          current_index := 1, active_tab := "T", sheet_gid := 7 } "next").2
      "prev").2.current_index = 1 :=
  (c8_navigate
    { cards := [sample_card 1 "a", sample_card 2 "b", sample_card 3 "c"],
      current_index := 1, active_tab := "T", sheet_gid := 7 }
    (by decide) (by decide)).2.2.2.2

/-- C9: `process_answer` applies the same `update_on_answer` policy whether or
not the session is in the review pass: for any two states whose current
contexts carry the same card, one in the review pass and one in the first
pass, the answer verdict and the level change are identical, the recorded
level change is exactly the one `update_on_answer` produces, and a correct
answer bumps `cnt_corr_answers` and raises the level via `next_level`. -/
theorem c9_review_policy (s₁ s₂ : LearnState) (ua : String) (now : Int)
    (ctx₁ ctx₂ : CardDisplayContext) (t₁ t₂ : LearnState)
    (h₁ : get_current_card_context s₁ = (some ctx₁, t₁))
    (h₂ : get_current_card_context s₂ = (some ctx₂, t₂))
    (hrev : ctx₁.is_reviewing_incorrect = true)
    (hfst : ctx₂.is_reviewing_incorrect = false)
    (hcard : ctx₁.card = ctx₂.card) :
    (process_answer s₁ ua now).1.is_correct = (process_answer s₂ ua now).1.is_correct
    ∧ (process_answer s₁ ua now).1.level_change
        = (process_answer s₂ ua now).1.level_change
    ∧ (process_answer s₁ ua now).1.level_change =
        some (update_on_answer ctx₁.card (check_answer ua ctx₁.card.word)
          now).level_change
    ∧ (check_answer ua ctx₁.card.word = true →
        (update_on_answer ctx₁.card true now).updated_card.cnt_corr_answers
            = ctx₁.card.cnt_corr_answers + 1
        ∧ (update_on_answer ctx₁.card true now).updated_card.level
            = next_level ctx₁.card.level) := by
  refine ⟨?_, ?_, ?_, ?_⟩
  · simp [process_answer, h₁, h₂, hcard]
  · simp [process_answer, h₁, h₂, hcard]
  · simp [process_answer, h₁]
  · intro hc
    exact ⟨by simp [update_on_answer], by simp [update_on_answer]⟩

/-- Witness for C9: a review-pass state and a first-pass state over the same
card produce the same answer verdict. -/
theorem c9_review_policy_witness :
    (process_answer
        { cards := [sample_card 1 "a"], current_index := 0,
          is_reviewing_incorrect := true, incorrect_indices := [0], answers := [],
          original_count := 1, active_tab := "T", sheet_gid := 7,
          last_level_change := none } "a" 5).1.is_correct
      = (process_answer
        { cards := [sample_card 1 "a"], current_index := 0,
          is_reviewing_incorrect := false, incorrect_indices := [], answers := [],
          original_count := 1, active_tab := "T", sheet_gid := 7,
          last_level_change := none } "a" 5).1.is_correct :=
  (c9_review_policy
    { cards := [sample_card 1 "a"], current_index := 0,
      is_reviewing_incorrect := true, incorrect_indices := [0], answers := [],
      original_count := 1, active_tab := "T", sheet_gid := 7,
      last_level_change := none }
    { cards := [sample_card 1 "a"], current_index := 0,
      is_reviewing_incorrect := false, incorrect_indices := [], answers := [],
      original_count := 1, active_tab := "T", sheet_gid := 7,
      last_level_change := none }
    "a" 5
    { card := sample_card 1 "a", is_review := true, index := 0, total := 1,
      is_reviewing_incorrect := true, active_tab := "T", sheet_gid := 7 }
    { card := sample_card 1 "a", is_review := false, index := 0, total := 1,
      is_reviewing_incorrect := false, active_tab := "T", sheet_gid := 7 }
    { cards := [sample_card 1 "a"], current_index := 0,
      is_reviewing_incorrect := true, incorrect_indices := [0], answers := [],
      original_count := 1, active_tab := "T", sheet_gid := 7,
      last_level_change := none }
    { cards := [sample_card 1 "a"], current_index := 0,
      is_reviewing_incorrect := false, incorrect_indices := [], answers := [],
      original_count := 1, active_tab := "T", sheet_gid := 7,
      last_level_change := none }
    (by decide) (by decide) rfl rfl rfl).1

/-- C4: `process_answer` appends the current first-pass index to the
incorrect queue exactly when the answer is incorrect and the session is not
in the review pass; consequently, over a complete first pass followed by any
prefix of the review pass, a card answered incorrectly on the first pass
occurs in the review queue exactly once (count 1) and an incorrect review
answer never re-enqueues it. -/
theorem c4_single_retry (cards : List Card) (tab : String) (gid : Int)
    (uas₁ uas₂ : List (String × Int))
    (h1 : uas₁.length = cards.length)
    (h2 : uas₂.length ≤
      (run_answers (initialize_session cards tab gid) uas₁).incorrect_indices.length) :
    (∀ (s : LearnState) (ua : String) (now : Int) (ctx : CardDisplayContext)
        (t : LearnState),
      get_current_card_context s = (some ctx, t) →
        (process_answer s ua now).2.incorrect_indices =
          (if check_answer ua ctx.card.word = false ∧ ctx.is_reviewing_incorrect = false
           then t.incorrect_indices ++ [ctx.index]
           else t.incorrect_indices))
    ∧ (run_answers (initialize_session cards tab gid) (uas₁ ++ uas₂)).incorrect_indices
        = first_pass_incorrect (cards.map (fun c => c.word)) 0 uas₁
    ∧ (∀ i : Nat,
        (run_answers (initialize_session cards tab gid)
            (uas₁ ++ uas₂)).incorrect_indices.count i
          = if i < uas₁.length
                ∧ check_answer (uas₁.getD i ("", 0)).1
                    ((cards.map (fun c => c.word)).getD i "") = false
            then 1 else 0) := by
  have hidx0 : (initialize_session cards tab gid).current_index + uas₁.length
      ≤ (initialize_session cards tab gid).cards.length := by
    simp [initialize_session, h1]
  obtain ⟨ha1, ha2, ha3, ha4, ha5, ha6, ha7⟩ :=
    run_first_pass uas₁ (initialize_session cards tab gid) rfl hidx0
  have hIncEq : (run_answers (initialize_session cards tab gid) uas₁).incorrect_indices
      = first_pass_incorrect (cards.map (fun c => c.word)) 0 uas₁ := by
    simpa [initialize_session] using ha5
  have hfinal : (run_answers (initialize_session cards tab gid)
        (uas₁ ++ uas₂)).incorrect_indices
      = first_pass_incorrect (cards.map (fun c => c.word)) 0 uas₁ := by
    rw [run_answers_append]
    cases uas₂ with
    | nil => simpa [run_answers] using hIncEq
    | cons u rest =>
        have hne : (run_answers (initialize_session cards tab gid)
            uas₁).incorrect_indices ≠ [] := by
          intro hemp
          rw [hemp] at h2
          simp at h2
        have hbnd : (run_answers (initialize_session cards tab gid) uas₁).cards.length
            ≤ (run_answers (initialize_session cards tab gid)
                uas₁).current_index := by
          rw [ha2, ha3]
          simp [initialize_session, h1]
        obtain ⟨ua, now⟩ := u
        have hb := answer_step_boundary
          (run_answers (initialize_session cards tab gid) uas₁) ua now ha1 hbnd hne
        have hrun2 : run_answers (run_answers (initialize_session cards tab gid) uas₁)
              ((ua, now) :: rest)
            = run_answers
                { run_answers (initialize_session cards tab gid) uas₁ with
                    is_reviewing_incorrect := true, current_index := 0 }
                ((ua, now) :: rest) := by
          simp only [run_answers]
          rw [hb]
        rw [hrun2]
        have hrr := run_review_pass ((ua, now) :: rest)
          { run_answers (initialize_session cards tab gid) uas₁ with
              is_reviewing_incorrect := true, current_index := 0 }
          rfl (by simpa using h2)
        rw [hrr.2.1]
        exact hIncEq
  refine ⟨?_, hfinal, ?_⟩
  · intro s ua now ctx t hctx
    by_cases hcond : check_answer ua ctx.card.word = false
        ∧ ctx.is_reviewing_incorrect = false
    · simp [process_answer, hctx, hcond]
    · simp [process_answer, hctx, hcond]
  · intro i
    rw [hfinal, count_first_pass_incorrect uas₁ (cards.map (fun c => c.word)) 0 i]
    simp only [Nat.zero_add, Nat.sub_zero, Nat.zero_le, true_and]

/-- Witness for C4: two cards, first pass answers (correct, incorrect), one
review-pass answer; the review queue is exactly the index of the card missed
on the first pass. -/
theorem c4_single_retry_witness :
    (run_answers
        (initialize_session [sample_card 1 "a", sample_card 2 "b"] "T" 7)
        ([("a", (5 : Int)), ("x", (6 : Int))] ++ [])).incorrect_indices
      = first_pass_incorrect
          ([sample_card 1 "a", sample_card 2 "b"].map (fun c => c.word)) 0
          [("a", (5 : Int)), ("x", (6 : Int))] :=
  (c4_single_retry [sample_card 1 "a", sample_card 2 "b"] "T" 7
    [("a", 5), ("x", 6)] [] rfl (Nat.zero_le _)).2.1

/-- C7: ending a session early reports `cards_remaining = original_count -
total_answered`, i.e. `n - k` after `k` of `n` staged cards were answered;
ending normally reports `cards_remaining = 0`. -/
theorem c7_early_end_accounting (cards : List Card) (tab : String) (gid : Int)
    (uas : List (String × Int)) (h : uas.length ≤ cards.length)
    (usid : Option String) (wb : Except String Unit) :
    (end_session (run_answers (initialize_session cards tab gid) uas) true usid
        wb).1.cards_remaining
      = (cards.length : Int) - (uas.length : Int)
    ∧ ∀ s : LearnState,
        (end_session s false usid wb).1.cards_remaining = 0 := by
  have hidx0 : (initialize_session cards tab gid).current_index + uas.length
      ≤ (initialize_session cards tab gid).cards.length := by
    simp [initialize_session, h]
  obtain ⟨-, -, -, -, -, ha6, ha7⟩ :=
    run_first_pass uas (initialize_session cards tab gid) rfl hidx0
  constructor
  · have ha6a : (run_answers (initialize_session cards tab gid) uas).answers.length
        = uas.length := by
      simpa [initialize_session] using ha6
    have ha7a : (run_answers (initialize_session cards tab gid) uas).original_count
        = cards.length := by
      simpa [initialize_session] using ha7
    simp [end_session, calculate_session_stats, ha6a, ha7a]
  · intro s
    simp [end_session]

/-- Witness for C7: two cards staged, one answered, early end leaves one
card remaining. -/
theorem c7_early_end_accounting_witness :
    (end_session
        (run_answers
          (initialize_session [sample_card 1 "a", sample_card 2 "b"] "T" 7)
          [("a", (5 : Int))])
        true none (Except.ok ())).1.cards_remaining = 1 := by
  rw [(c7_early_end_accounting [sample_card 1 "a", sample_card 2 "b"] "T" 7
    [("a", 5)] (by decide) none (Except.ok ())).1]
  decide

end Langtut
